import Mathlib

/-!
# RabbitMQ user resource (`rabbitmq/resource_user.go`)

A shallow embedding of the four lifecycle operations of the user resource
(`CreateUser`, `ReadUser`, `UpdateUser`, `DeleteUser`) and of the tag encoding
helper `userTagsToString`.

* The declared-state record `*schema.ResourceData` is a structure with the
  fields the resource reads and writes; `d.HasChange` is answered from two
  flags supplied by the host.
* The broker client `*rabbithole.Client` is an oracle: the answer to a call
  may depend on every remote call issued before it.  Each operation threads
  the log of remote calls it has issued, oldest call first.
* Go `error` results become `Option Error`, `nil` being `none`.
-/

namespace Rabbitmq

/-! ## Go values -/

/-- An entry of a `[]interface{}`: a string, or a value of another dynamic type. -/
inductive Value where
  | str (s : String)
  | int (i : Int)
  | bool (b : Bool)
  | null
  deriving DecidableEq, Repr

/-- Go `error` values seen by the resource. -/
inductive Error where
  /-- a connection-level failure returned by the client -/
  | transport (msg : String)
  /-- an error response of the management API, with its HTTP status code -/
  | response (statusCode : Int) (msg : String)
  /-- an error built with `fmt.Errorf` -/
  | errorf (msg : String)
  /-- the retry window elapsed before any attempt reported an error -/
  | timeout
  deriving DecidableEq, Repr

/-- The text of an error, as `%s` prints it. -/
def Error.text : Error → String
  | .transport msg => msg
  | .response _ msg => msg
  | .errorf msg => msg
  | .timeout => "timeout while waiting for state"

/-- The part of `*http.Response` the resource inspects. -/
structure Response where
  StatusCode : Int
  Status : String
  deriving DecidableEq, Repr

/-- The type `rabbithole.UserSettings`, the payload of `PutUser`; an unset field is the empty string. -/
structure UserSettings where
  Password : String := ""
  Tags : String := ""
  deriving DecidableEq, Repr

/-- The type `rabbithole.UserInfo`, the record `GetUser` returns. -/
structure UserInfo where
  Name : String
  Tags : String
  deriving DecidableEq, Repr

/-! ## `strings.Join` and `strings.Split` -/

/-- Go's `strings.Join(elems, sep)`: nothing for no element, the element itself for one,
otherwise the first element followed by `sep` and the next element, in turn. -/
def stringsJoin (elems : List String) (sep : String) : String :=
  match elems with
  | [] => ""
  | [e] => e
  | e :: rest => rest.foldl (fun b s => b ++ sep ++ s) e

/-- The pieces of a character sequence between the occurrences of `sep`. -/
def splitChars (sep : Char) : List Char → List (List Char)
  | [] => [[]]
  | c :: cs =>
    if c = sep then [] :: splitChars sep cs
    else
      match splitChars sep cs with
      | [] => [[c]]
      | w :: ws => (c :: w) :: ws

/-- Go's `strings.Split(s, sep)` for a separator of one character (the resource only
splits on `","`): the substrings of `s` between the separators, so one more
piece than there are separators, and `[""]` for the empty string. -/
def stringsSplit (s : String) (sep : Char) : List String :=
  (splitChars sep s.data).map String.mk

/-! ## The declared-state record -/

/-- The keys of the resource schema. -/
inductive Key where
  | name
  | password
  | tags
  deriving DecidableEq, Repr

/-- The state behind `*schema.ResourceData`: the identity of the resource, the
value of each schema field, what the host answers to `HasChange`, and the number
of attempts that fit in the create timeout. -/
structure ResourceData where
  id : String
  name : String
  password : String
  tags : List Value
  passwordChanged : Bool
  tagsChanged : Bool
  timeoutCreate : Nat
  deriving DecidableEq, Repr

/-- The accessor `d.Id()`. -/
def ResourceData.Id (d : ResourceData) : String := d.id

/-- The setter `d.SetId(v)`. -/
def ResourceData.SetId (d : ResourceData) (v : String) : ResourceData := { d with id := v }

/-- The query `d.HasChange(key)`; `name` forces a new resource, so it never changes in place. -/
def ResourceData.HasChange (d : ResourceData) : Key → Bool
  | .name => false
  | .password => d.passwordChanged
  | .tags => d.tagsChanged

/-! ## The broker client -/

/-- A remote call issued through the client. -/
inductive Call where
  | PutUser (name : String) (settings : UserSettings)
  | GetUser (name : String)
  | DeleteUser (name : String)
  deriving DecidableEq, Repr

/-- The broker seen through `*rabbithole.Client`.  The first argument of each
operation is the log of the calls issued so far; `PutUser` and `DeleteUser`
return Go's pair `(resp, err)`, `GetUser` returns the record or the error. -/
structure Client where
  PutUser : List Call → String → UserSettings → Response × Option Error
  GetUser : List Call → String → Except Error UserInfo
  DeleteUser : List Call → String → Response × Option Error

/-- What an operation carries along: the local record and the log of remote calls. -/
structure Run where
  d : ResourceData
  calls : List Call
  deriving DecidableEq, Repr

/-! ## Helpers of the host library and of the provider -/

/-- The type `resource.RetryError`. -/
structure RetryError where
  Err : Error
  Retryable : Bool
  deriving DecidableEq, Repr

/-- Modelled from the spec: `resource.RetryableError` of the host library is not
among the sources; it classifies a failure as retryable. -/
def RetryableError (err : Error) : RetryError := { Err := err, Retryable := true }

/-- Modelled from the spec: `resource.NonRetryableError` of the host library is not
among the sources; it ends the retry loop with the result it is given, success
for `nil` and a terminal failure otherwise. -/
def NonRetryableError : Option Error → Option RetryError
  | none => none
  | some err => some { Err := err, Retryable := false }

/-- Modelled from the spec: `resource.Retry` of the host library is not among the
sources.  It runs the whole call again after each retryable failure until the
timeout elapses, here after `window` attempts; a success or a terminal failure
ends it at once; when the window closes it fails with the last error, or with a
timeout error when no attempt was made. -/
def Retry {σ : Type} (f : σ → σ × Option RetryError) : Nat → Option Error → σ → σ × Option Error
  | 0, last, s => (s, some (last.getD Error.timeout))
  | window + 1, _, s =>
    match f s with
    | (s1, none) => (s1, none)
    | (s1, some rerr) =>
      if rerr.Retryable then Retry f window (some rerr.Err) s1 else (s1, some rerr.Err)

/-- Modelled from the spec: the not-found condition that `checkDeleted` tests, an
error response of the management API with status 404. -/
def Error.isNotFound : Error → Bool
  | .response statusCode _ => statusCode == 404
  | _ => false

/-- Modelled from the spec: `checkDeleted` is defined in another file of the
provider.  When the API reports the entity missing it clears the local identity
and reports no error; any other failure is propagated. -/
def checkDeleted (d : ResourceData) (err : Error) : ResourceData × Option Error :=
  if err.isNotFound then (d.SetId "", none) else (d, some err)

/-! ## The resource -/

/-- The helper `userTagsToString`: the string entries of `d.Get("tags")`, appended in order to
`tagList`, then joined with `","`. -/
def userTagsToString (d : ResourceData) : String :=
  let tagList : List String :=
    d.tags.foldl
      (fun tagList v =>
        match v with
        | .str tag => tagList ++ [tag]
        | _ => tagList)
      []
  stringsJoin tagList ","

/-- The operation `ReadUser`. -/
def ReadUser (rmqc : Client) (s : Run) : Run × Option Error :=
  let s1 : Run := { s with calls := s.calls ++ [Call.GetUser s.d.Id] }
  match rmqc.GetUser s.calls s.d.Id with
  | .error err =>
    let r := checkDeleted s1.d err
    ({ s1 with d := r.1 }, r.2)
  | .ok user =>
    let d1 : ResourceData := { s1.d with name := user.Name }
    let d2 : ResourceData :=
      if user.Tags.length > 0 then
        { d1 with tags := (stringsSplit user.Tags ',').map Value.str }
      else d1
    ({ s1 with d := d2 }, none)

/-- The function `CreateUser` hands to `resource.Retry`: one attempt. -/
def CreateUser.attempt (rmqc : Client) (name : String) (userSettings : UserSettings)
    (s : Run) : Run × Option RetryError :=
  let r := rmqc.PutUser s.calls name userSettings
  let s1 : Run := { s with calls := s.calls ++ [Call.PutUser name userSettings] }
  match r.2 with
  | some err =>
    (s1, some (RetryableError
      (Error.errorf ("expected user to be created but received error: " ++ err.text))))
  | none =>
    let s2 : Run := { s1 with d := s1.d.SetId name }
    let rd := ReadUser rmqc s2
    (rd.1, NonRetryableError rd.2)

/-- The payload `userSettings` that `CreateUser` builds before it starts to retry. -/
def CreateUser.userSettings (d : ResourceData) : UserSettings :=
  { Password := d.password, Tags := userTagsToString d }

/-- The operation `CreateUser`. -/
def CreateUser (rmqc : Client) (s : Run) : Run × Option Error :=
  let name := s.d.name
  let userSettings := CreateUser.userSettings s.d
  Retry (CreateUser.attempt rmqc name userSettings) s.d.timeoutCreate none s

/-- The `if d.HasChange("password")` block of `UpdateUser`. -/
def UpdateUser.password (rmqc : Client) (name : String) (s : Run) : Run × Option Error :=
  if s.d.HasChange Key.password then
    let tags := userTagsToString s.d
    let password := s.d.password
    let userSettings : UserSettings := { Password := password, Tags := tags }
    let r := rmqc.PutUser s.calls name userSettings
    let s1 : Run := { s with calls := s.calls ++ [Call.PutUser name userSettings] }
    match r.2 with
    | some err => (s1, some err)
    | none =>
      if r.1.StatusCode ≥ 400 then
        (s1, some (Error.errorf ("Error updating RabbitMQ user: " ++ r.1.Status)))
      else (s1, none)
  else (s, none)

/-- The `if d.HasChange("tags")` block of `UpdateUser`. -/
def UpdateUser.tags (rmqc : Client) (name : String) (s : Run) : Run × Option Error :=
  if s.d.HasChange Key.tags then
    let userSettings : UserSettings := { Tags := userTagsToString s.d }
    let r := rmqc.PutUser s.calls name userSettings
    let s1 : Run := { s with calls := s.calls ++ [Call.PutUser name userSettings] }
    match r.2 with
    | some err => (s1, some err)
    | none =>
      if r.1.StatusCode ≥ 400 then
        (s1, some (Error.errorf ("Error updating RabbitMQ user: " ++ r.1.Status)))
      else (s1, none)
  else (s, none)

/-- The operation `UpdateUser`. -/
def UpdateUser (rmqc : Client) (s : Run) : Run × Option Error :=
  let name := s.d.Id
  match UpdateUser.password rmqc name s with
  | (s1, some err) => (s1, some err)
  | (s1, none) =>
    match UpdateUser.tags rmqc name s1 with
    | (s2, some err) => (s2, some err)
    | (s2, none) => ReadUser rmqc s2

/-- The operation `DeleteUser`. -/
def DeleteUser (rmqc : Client) (s : Run) : Run × Option Error :=
  let name := s.d.Id
  let r := rmqc.DeleteUser s.calls name
  let s1 : Run := { s with calls := s.calls ++ [Call.DeleteUser name] }
  match r.2 with
  | some err => (s1, some err)
  | none =>
    if r.1.StatusCode = 404 then (s1, none)
    else if r.1.StatusCode ≥ 400 then
      (s1, some (Error.errorf ("Error deleting RabbitMQ user: " ++ r.1.Status)))
    else (s1, none)

/-! ## The tag encoding, stated from its description -/

/-- The string held by an entry, when the entry is a string. -/
def Value.string? : Value → Option String
  | .str s => some s
  | _ => none

/-- The encoding as the specification words it: the string entries, in order,
the others skipped, joined by a comma. -/
def tagEncodingSpec (tags : List Value) : String :=
  ",".intercalate (tags.filterMap Value.string?)

/-- A record whose declared tags are the given strings. -/
def declaredTags (xs : List String) : ResourceData :=
  { id := "", name := "", password := "", tags := xs.map Value.str,
    passwordChanged := false, tagsChanged := false, timeoutCreate := 0 }

/-! ## The attempts of a creation -/

/-- The remote call of one attempt of `CreateUser`. -/
def CreateUser.putCall (d : ResourceData) : Call :=
  Call.PutUser d.name (CreateUser.userSettings d)

/-- The log of remote calls once `k` attempts of `CreateUser` have been issued. -/
def CreateUser.logAfter (s : Run) (k : Nat) : List Call :=
  s.calls ++ List.replicate k (CreateUser.putCall s.d)

/-- What the broker returns as `err` to attempt `k` of `CreateUser`, counted from 0,
when the attempts before it were issued. -/
def CreateUser.putErr (rmqc : Client) (s : Run) (k : Nat) : Option Error :=
  (rmqc.PutUser (CreateUser.logAfter s k) s.d.name (CreateUser.userSettings s.d)).2

/-- The status code of the response the broker returns to attempt `k` of
`CreateUser`, counted from 0, when the attempts before it were issued. -/
def CreateUser.putStatus (rmqc : Client) (s : Run) (k : Nat) : Int :=
  (rmqc.PutUser (CreateUser.logAfter s k) s.d.name (CreateUser.userSettings s.d)).1.StatusCode

/-! ## Brokers used at concrete inputs -/

/-- A broker that gives the same answer to every call of each kind. -/
def fixedClient (put : Response × Option Error) (get : Except Error UserInfo)
    (del : Response × Option Error) : Client :=
  { PutUser := fun _ _ _ => put, GetUser := fun _ _ => get, DeleteUser := fun _ _ => del }

/-- The response `200 OK`. -/
def ok200 : Response := { StatusCode := 200, Status := "200 OK" }

/-- The response `204 No Content`. -/
def noContent204 : Response := { StatusCode := 204, Status := "204 No Content" }

/-- The response `404 Not Found`. -/
def notFound404 : Response := { StatusCode := 404, Status := "404 Not Found" }

/-- The response `500 Internal Server Error`. -/
def serverError500 : Response := { StatusCode := 500, Status := "500 Internal Server Error" }

/-- A broker that accepts a `PutUser` carrying a password and refuses one without. -/
def tagsRefusingClient : Client :=
  { PutUser := fun _ _ u => if u.Password = "" then (serverError500, none) else (noContent204, none),
    GetUser := fun _ name => .ok { Name := name, Tags := "" },
    DeleteUser := fun _ _ => (noContent204, none) }

/-- The local record of the user `svc-user`, with the answers of `HasChange`. -/
def svcUser (password : String) (tags : List String) (passwordChanged tagsChanged : Bool) :
    ResourceData :=
  { id := "svc-user", name := "svc-user", password := password, tags := tags.map Value.str,
    passwordChanged := passwordChanged, tagsChanged := tagsChanged, timeoutCreate := 3 }

/-- A broker whose `PutUser` returns a transport error while fewer than `n` calls
have been issued and accepts the write from then on. -/
def flakyClient (n : Nat) : Client :=
  { PutUser := fun log _ _ =>
      if log.length < n then (ok200, some (Error.transport "connection refused"))
      else (noContent204, none),
    GetUser := fun _ name => .ok { Name := name, Tags := "management" },
    DeleteUser := fun _ _ => (noContent204, none) }

/-- The declared user `svc-user` before its creation: no identity yet, and a create
timeout that leaves room for three attempts. -/
def newUser : ResourceData :=
  { id := "", name := "svc-user", password := "p1", tags := [Value.str "management"],
    passwordChanged := true, tagsChanged := true, timeoutCreate := 3 }

/-! ## Strings -/

theorem intercalate_go_eq_foldl (sep : String) (rest : List String) (e : String) :
    String.intercalate.go e sep rest = rest.foldl (fun b s => b ++ sep ++ s) e := by
  induction rest generalizing e with
  | nil => rfl
  | cons a rest ih => simp [String.intercalate.go, ih]

theorem stringsJoin_eq_intercalate (elems : List String) (sep : String) :
    stringsJoin elems sep = sep.intercalate elems := by
  cases elems with
  | nil => rfl
  | cons e rest =>
    cases rest with
    | nil => rfl
    | cons a rest =>
      simp [stringsJoin, String.intercalate, intercalate_go_eq_foldl]

theorem tagList_foldl (tags : List Value) (acc : List String) :
    tags.foldl
      (fun tagList v =>
        match v with
        | .str tag => tagList ++ [tag]
        | _ => tagList)
      acc
      = acc ++ tags.filterMap Value.string? := by
  induction tags generalizing acc with
  | nil => simp
  | cons v tags ih =>
    cases v <;> simp [List.foldl, ih, Value.string?, List.filterMap_cons]

theorem userTagsToString_eq_join (d : ResourceData) :
    userTagsToString d = stringsJoin (d.tags.filterMap Value.string?) "," := by
  simp [userTagsToString, tagList_foldl]

theorem filterMap_string?_map_str (xs : List String) :
    (xs.map Value.str).filterMap Value.string? = xs := by
  induction xs with
  | nil => rfl
  | cons x xs ih => simp [Value.string?, ih]

theorem splitChars_ne_nil (sep : Char) (l : List Char) : splitChars sep l ≠ [] := by
  cases l with
  | nil => simp [splitChars]
  | cons c cs =>
    unfold splitChars
    split
    · simp
    · split <;> simp

theorem splitChars_of_not_mem (sep : Char) (w : List Char) (h : sep ∉ w) :
    splitChars sep w = [w] := by
  induction w with
  | nil => rfl
  | cons c cs ih =>
    have hc : c ≠ sep := fun e => h (by simp [e])
    have hcs : sep ∉ cs := fun e => h (by simp [e])
    simp [splitChars, hc, ih hcs]

theorem splitChars_append_sep (sep : Char) (w t : List Char) (h : sep ∉ w) :
    splitChars sep (w ++ sep :: t) = w :: splitChars sep t := by
  induction w with
  | nil => simp [splitChars]
  | cons c cs ih =>
    have hc : c ≠ sep := fun e => h (by simp [e])
    have hcs : sep ∉ cs := fun e => h (by simp [e])
    simp [splitChars, hc, ih hcs]

theorem foldl_join_data (sep : String) (rest : List String) (e : String) :
    (rest.foldl (fun b s => b ++ sep ++ s) e).data
      = e.data ++ (rest.map (fun s => sep.data ++ s.data)).flatten := by
  induction rest generalizing e with
  | nil => simp
  | cons a rest ih => simp [ih, String.data_append]

theorem splitChars_joined (sep : Char) (rest : List String) (w : List Char)
    (hw : sep ∉ w) (hrest : ∀ x ∈ rest, sep ∉ x.data) :
    splitChars sep (w ++ (rest.map (fun s => [sep] ++ s.data)).flatten)
      = w :: rest.map String.data := by
  induction rest generalizing w with
  | nil => simpa using splitChars_of_not_mem sep w hw
  | cons a rest ih =>
    have ha : sep ∉ a.data := hrest a (by simp)
    have hr : ∀ x ∈ rest, sep ∉ x.data := fun x hx => hrest x (by simp [hx])
    have := ih a.data ha hr
    simp only [List.map_cons, List.flatten_cons, List.singleton_append, List.cons_append]
    rw [splitChars_append_sep sep w _ hw]
    simpa using this

theorem stringsSplit_stringsJoin (xs : List String) (hne : xs ≠ [])
    (hx : ∀ x ∈ xs, ',' ∉ x.data) : stringsSplit (stringsJoin xs ",") ',' = xs := by
  cases xs with
  | nil => exact absurd rfl hne
  | cons e rest =>
    have he : ',' ∉ e.data := hx e (by simp)
    have hr : ∀ x ∈ rest, ',' ∉ x.data := fun x h => hx x (by simp [h])
    have hdata : (stringsJoin (e :: rest) ",").data
        = e.data ++ (rest.map (fun s => [','] ++ s.data)).flatten := by
      cases rest with
      | nil => simp [stringsJoin]
      | cons a rest => simpa [stringsJoin] using foldl_join_data "," (a :: rest) e
    simp only [stringsSplit, hdata, splitChars_joined ',' rest e.data he hr]
    simp [Function.comp_def]

theorem stringsJoin_eq_empty_iff (xs : List String) :
    stringsJoin xs "," = "" ↔ xs = [] ∨ xs = [""] := by
  cases xs with
  | nil => simp [stringsJoin]
  | cons e rest =>
    cases rest with
    | nil => simp [stringsJoin]
    | cons a rest =>
      constructor
      · intro h
        have hd := congrArg String.data h
        rw [show stringsJoin (e :: a :: rest) "," =
          (a :: rest).foldl (fun b s => b ++ "," ++ s) e from rfl, foldl_join_data] at hd
        simp at hd
      · intro h
        simp at h

theorem length_pos_iff_ne_empty (s : String) : s.length > 0 ↔ s ≠ "" := by
  cases s with
  | mk l =>
    cases l with
    | nil => simp [String.length]
    | cons c cs =>
      simp only [String.length, List.length_cons, gt_iff_lt, Nat.zero_lt_succ, ne_eq, true_iff]
      intro h
      exact absurd (congrArg String.data h) (by simp)

theorem ReadUser_ok (rmqc : Client) (s : Run) (user : UserInfo)
    (hget : rmqc.GetUser s.calls s.d.Id = .ok user) :
    ReadUser rmqc s =
      ({ d := { s.d with
                name := user.Name
                tags := if user.Tags.length > 0 then
                          (stringsSplit user.Tags ',').map Value.str
                        else s.d.tags },
         calls := s.calls ++ [Call.GetUser s.d.Id] }, none) := by
  unfold ReadUser
  simp only [hget]
  split <;> rfl

/-! ## Tag encoding and decoding -/

/-- C9: `userTagsToString` returns the string entries of the declared tags, in
their order and with every other entry skipped, joined by a comma and nothing
else; so the empty string for no tags and for tags without a string entry, and
a single tag as it is. -/
theorem userTagsToString_spec (d : ResourceData) :
    userTagsToString d = tagEncodingSpec d.tags ∧
    (d.tags = [] → userTagsToString d = "") ∧
    ((∀ v ∈ d.tags, v.string? = none) → userTagsToString d = "") ∧
    (∀ t : String, d.tags = [Value.str t] → userTagsToString d = t) := by
  refine ⟨?_, ?_, ?_, ?_⟩
  · rw [userTagsToString_eq_join, stringsJoin_eq_intercalate, tagEncodingSpec]
  · intro h
    rw [userTagsToString_eq_join, h]
    rfl
  · intro h
    have : d.tags.filterMap Value.string? = [] := by
      rw [List.filterMap_eq_nil_iff]
      exact h
    rw [userTagsToString_eq_join, this]
    rfl
  · intro t h
    rw [userTagsToString_eq_join, h]
    rfl

/-- C9, at concrete tags: no tags and a lone non-string entry encode to the empty
string, and a single tag encodes to itself. -/
theorem userTagsToString_spec_witness :
    userTagsToString (declaredTags []) = "" ∧
    userTagsToString { declaredTags [] with tags := [Value.int 7] } = "" ∧
    userTagsToString (declaredTags ["administrator"]) = "administrator" :=
  ⟨(userTagsToString_spec (declaredTags [])).2.1 rfl,
   (userTagsToString_spec { declaredTags [] with tags := [Value.int 7] }).2.2.1
     (by intro v hv; simp at hv; subst hv; rfl),
   (userTagsToString_spec (declaredTags ["administrator"])).2.2.2 "administrator" rfl⟩

/-- C1, as stated, fails at the empty sequence: it is comma-free and encodes to
the empty string, which splits into one empty tag, not into no tag; a single empty
tag has the same encoding, so the encoding alone cannot tell the two apart; and
`ReadUser` does not split an empty tags-string at all, so a record holding another
tag keeps it. -/
theorem tag_roundtrip_fails_on_empty_encoding :
    (∀ x ∈ ([] : List String), ',' ∉ x.data) ∧
    userTagsToString (declaredTags []) = "" ∧
    stringsSplit (userTagsToString (declaredTags [])) ',' = [""] ∧
    stringsSplit (userTagsToString (declaredTags [])) ',' ≠ [] ∧
    userTagsToString (declaredTags [""]) = userTagsToString (declaredTags []) ∧
    (ReadUser
        (fixedClient (ok200, none)
          (.ok { Name := "svc-user", Tags := userTagsToString (declaredTags []) })
          (ok200, none))
        { d := declaredTags ["administrator"], calls := [] }).1.d.tags
      = [Value.str "administrator"] := by
  refine ⟨by simp, rfl, rfl, by decide, rfl, rfl⟩

/-- C1, amended: for every ordered sequence of comma-free strings whose encoding
by `userTagsToString` is not empty, splitting the encoding on the comma gives the
sequence back, and `ReadUser`, given a remote record that carries the encoding,
sets the local tags to the sequence, whatever they were; the encoding is empty
only for the empty sequence and for a single empty tag, and then `ReadUser` does
not split and the local tags stay as they were. -/
theorem tag_roundtrip_of_nonempty_encoding (d : ResourceData) (xs : List String)
    (hd : d.tags = xs.map Value.str) (hx : ∀ x ∈ xs, ',' ∉ x.data)
    (rmqc : Client) (s : Run) (user : UserInfo)
    (hget : rmqc.GetUser s.calls s.d.Id = .ok user)
    (htags : user.Tags = userTagsToString d) :
    (userTagsToString d = "" ↔ xs = [] ∨ xs = [""]) ∧
    (userTagsToString d ≠ "" →
      stringsSplit (userTagsToString d) ',' = xs ∧
      (ReadUser rmqc s).1.d.tags = xs.map Value.str) ∧
    (userTagsToString d = "" → (ReadUser rmqc s).1.d.tags = s.d.tags) := by
  have henc : userTagsToString d = stringsJoin xs "," := by
    rw [userTagsToString_eq_join, hd, filterMap_string?_map_str]
  refine ⟨by rw [henc]; exact stringsJoin_eq_empty_iff xs, ?_⟩
  rw [ReadUser_ok rmqc s user hget, htags]
  constructor
  · intro hne
    have hxs : xs ≠ [] := by
      intro h
      apply hne
      rw [henc, h]
      rfl
    have hsplit : stringsSplit (userTagsToString d) ',' = xs := by
      rw [henc]
      exact stringsSplit_stringsJoin xs hxs hx
    have hlen : (userTagsToString d).length > 0 := (length_pos_iff_ne_empty _).mpr hne
    refine ⟨hsplit, ?_⟩
    simp only [hlen, if_true, hsplit]
  · intro he
    simp [he]

/-- C1, amended, at the tags `administrator` and `monitoring`, read into a record
without tags, and at no tags, read into a record that holds `management`. -/
theorem tag_roundtrip_of_nonempty_encoding_witness :
    (stringsSplit (userTagsToString (declaredTags ["administrator", "monitoring"])) ','
        = ["administrator", "monitoring"] ∧
      (ReadUser
          (fixedClient (ok200, none)
            (.ok { Name := "svc-user", Tags := "administrator,monitoring" }) (ok200, none))
          { d := declaredTags [], calls := [] }).1.d.tags
        = [Value.str "administrator", Value.str "monitoring"]) ∧
    (ReadUser
        (fixedClient (ok200, none) (.ok { Name := "svc-user", Tags := "" }) (ok200, none))
        { d := declaredTags ["management"], calls := [] }).1.d.tags
      = [Value.str "management"] :=
  ⟨(tag_roundtrip_of_nonempty_encoding (declaredTags ["administrator", "monitoring"])
      ["administrator", "monitoring"] rfl (by decide)
      (fixedClient (ok200, none)
        (.ok { Name := "svc-user", Tags := "administrator,monitoring" }) (ok200, none))
      { d := declaredTags [], calls := [] }
      { Name := "svc-user", Tags := "administrator,monitoring" } rfl rfl).2.1 (by decide),
   (tag_roundtrip_of_nonempty_encoding (declaredTags []) [] rfl (by decide)
      (fixedClient (ok200, none) (.ok { Name := "svc-user", Tags := "" }) (ok200, none))
      { d := declaredTags ["management"], calls := [] }
      { Name := "svc-user", Tags := "" } rfl rfl).2.2 rfl⟩

/-! ## Read -/

theorem ReadUser_calls (rmqc : Client) (s : Run) :
    (ReadUser rmqc s).1.calls = s.calls ++ [Call.GetUser s.d.Id] := by
  unfold ReadUser
  split <;> rfl

/-- C7: when `GetUser` returns a record, `ReadUser` returns no error and sets the
local name to the remote name; an empty remote tags-string leaves the local tags
exactly as they were, a non-empty one replaces them by its split on the comma;
password and identity are unchanged in both cases. -/
theorem ReadUser_found (rmqc : Client) (s : Run) (user : UserInfo)
    (hget : rmqc.GetUser s.calls s.d.Id = .ok user) :
    (ReadUser rmqc s).2 = none ∧
    (ReadUser rmqc s).1.d.name = user.Name ∧
    (user.Tags = "" → (ReadUser rmqc s).1.d.tags = s.d.tags) ∧
    (user.Tags ≠ "" →
      (ReadUser rmqc s).1.d.tags = (stringsSplit user.Tags ',').map Value.str) ∧
    (ReadUser rmqc s).1.d.password = s.d.password ∧
    (ReadUser rmqc s).1.d.id = s.d.id := by
  rw [ReadUser_ok rmqc s user hget]
  refine ⟨rfl, rfl, ?_, ?_, rfl, rfl⟩
  · intro h
    simp [h]
  · intro h
    have hlen : user.Tags.length > 0 := (length_pos_iff_ne_empty _).mpr h
    simp only [hlen, if_true]

/-- C7, at a record with an empty tags-string read into a local state that holds
the tag `management`. -/
theorem ReadUser_found_witness :
    (ReadUser
        (fixedClient (ok200, none) (.ok { Name := "svc-user", Tags := "" }) (ok200, none))
        { d := { declaredTags ["management"] with id := "svc-user", password := "p1" },
          calls := [] }).1.d.tags
      = [Value.str "management"] :=
  (ReadUser_found
    (fixedClient (ok200, none) (.ok { Name := "svc-user", Tags := "" }) (ok200, none))
    { d := { declaredTags ["management"] with id := "svc-user", password := "p1" },
      calls := [] }
    { Name := "svc-user", Tags := "" } rfl).2.2.1 rfl

/-! ## Update -/

theorem UpdateUser_password_skip (rmqc : Client) (name : String) (s : Run)
    (h : s.d.HasChange Key.password = false) : UpdateUser.password rmqc name s = (s, none) := by
  simp [UpdateUser.password, h]

theorem UpdateUser_tags_skip (rmqc : Client) (name : String) (s : Run)
    (h : s.d.HasChange Key.tags = false) : UpdateUser.tags rmqc name s = (s, none) := by
  simp [UpdateUser.tags, h]

theorem UpdateUser_password_ok (rmqc : Client) (name : String) (s : Run)
    (h : s.d.HasChange Key.password = true)
    (herr : (rmqc.PutUser s.calls name
      { Password := s.d.password, Tags := userTagsToString s.d }).2 = none)
    (hst : (rmqc.PutUser s.calls name
      { Password := s.d.password, Tags := userTagsToString s.d }).1.StatusCode < 400) :
    UpdateUser.password rmqc name s =
      ({ s with calls := s.calls ++
          [Call.PutUser name { Password := s.d.password, Tags := userTagsToString s.d }] },
        none) := by
  simp [UpdateUser.password, h, herr, not_le.mpr hst]

theorem UpdateUser_tags_ok (rmqc : Client) (name : String) (s : Run)
    (h : s.d.HasChange Key.tags = true)
    (herr : (rmqc.PutUser s.calls name
      { Password := "", Tags := userTagsToString s.d }).2 = none)
    (hst : (rmqc.PutUser s.calls name
      { Password := "", Tags := userTagsToString s.d }).1.StatusCode < 400) :
    UpdateUser.tags rmqc name s =
      ({ s with calls := s.calls ++
          [Call.PutUser name { Password := "", Tags := userTagsToString s.d }] },
        none) := by
  simp [UpdateUser.tags, h, herr, not_le.mpr hst]

theorem UpdateUser_password_fail (rmqc : Client) (name : String) (s : Run)
    (h : s.d.HasChange Key.password = true)
    (hfail : (rmqc.PutUser s.calls name
        { Password := s.d.password, Tags := userTagsToString s.d }).2 ≠ none ∨
      (rmqc.PutUser s.calls name
        { Password := s.d.password, Tags := userTagsToString s.d }).1.StatusCode ≥ 400) :
    (UpdateUser.password rmqc name s).1 =
      { s with calls := s.calls ++
          [Call.PutUser name { Password := s.d.password, Tags := userTagsToString s.d }] } ∧
    (UpdateUser.password rmqc name s).2 ≠ none := by
  simp only [UpdateUser.password, h, if_true]
  split
  · simp
  · rename_i hnone
    rcases hfail with h1 | h2
    · exact absurd hnone h1
    · simp [h2]

theorem UpdateUser_tags_fail (rmqc : Client) (name : String) (s : Run)
    (h : s.d.HasChange Key.tags = true)
    (hfail : (rmqc.PutUser s.calls name
        { Password := "", Tags := userTagsToString s.d }).2 ≠ none ∨
      (rmqc.PutUser s.calls name
        { Password := "", Tags := userTagsToString s.d }).1.StatusCode ≥ 400) :
    (UpdateUser.tags rmqc name s).1 =
      { s with calls := s.calls ++
          [Call.PutUser name { Password := "", Tags := userTagsToString s.d }] } ∧
    (UpdateUser.tags rmqc name s).2 ≠ none := by
  simp only [UpdateUser.tags, h, if_true]
  split
  · simp
  · rename_i hnone
    rcases hfail with h1 | h2
    · exact absurd hnone h1
    · simp [h2]

/-- C10: when neither the password nor the tags changed, `UpdateUser` is exactly
`ReadUser`: it returns what that one read returns, and the only remote call it
issues is the `GetUser` of that read, so no `PutUser` at all. -/
theorem UpdateUser_unchanged (rmqc : Client) (s : Run)
    (hp : s.d.HasChange Key.password = false) (ht : s.d.HasChange Key.tags = false) :
    UpdateUser rmqc s = ReadUser rmqc s ∧
    (UpdateUser rmqc s).1.calls = s.calls ++ [Call.GetUser s.d.Id] := by
  have h : UpdateUser rmqc s = ReadUser rmqc s := by
    simp [UpdateUser, UpdateUser_password_skip rmqc _ s hp, UpdateUser_tags_skip rmqc _ s ht]
  exact ⟨h, by rw [h, ReadUser_calls]⟩

/-- C10, at an unchanged record on a broker that would refuse every write. -/
theorem UpdateUser_unchanged_witness :
    (UpdateUser
        (fixedClient (serverError500, none)
          (.ok { Name := "svc-user", Tags := "management" }) (ok200, none))
        { d := { declaredTags ["management"] with id := "svc-user", password := "p1" },
          calls := [] }).1.calls
      = [Call.GetUser "svc-user"] :=
  (UpdateUser_unchanged
    (fixedClient (serverError500, none)
      (.ok { Name := "svc-user", Tags := "management" }) (ok200, none))
    { d := { declaredTags ["management"] with id := "svc-user", password := "p1" },
      calls := [] } rfl rfl).2

/-- C2: with every `PutUser` call answered without error and with a status below
400, `UpdateUser` issues, before its read: when only the tags changed, one
`PutUser` carrying the tags encoding and an empty password; when only the
password changed, one `PutUser` carrying the password and the tags encoding; when
both changed, those two calls, the one with the password first. -/
theorem UpdateUser_field_isolation (rmqc : Client) (s : Run) :
    (s.d.HasChange Key.password = false → s.d.HasChange Key.tags = true →
      (rmqc.PutUser s.calls s.d.Id
        { Password := "", Tags := userTagsToString s.d }).2 = none →
      (rmqc.PutUser s.calls s.d.Id
        { Password := "", Tags := userTagsToString s.d }).1.StatusCode < 400 →
      (UpdateUser rmqc s).1.calls = s.calls ++
        [Call.PutUser s.d.Id { Password := "", Tags := userTagsToString s.d },
         Call.GetUser s.d.Id]) ∧
    (s.d.HasChange Key.password = true → s.d.HasChange Key.tags = false →
      (rmqc.PutUser s.calls s.d.Id
        { Password := s.d.password, Tags := userTagsToString s.d }).2 = none →
      (rmqc.PutUser s.calls s.d.Id
        { Password := s.d.password, Tags := userTagsToString s.d }).1.StatusCode < 400 →
      (UpdateUser rmqc s).1.calls = s.calls ++
        [Call.PutUser s.d.Id { Password := s.d.password, Tags := userTagsToString s.d },
         Call.GetUser s.d.Id]) ∧
    (s.d.HasChange Key.password = true → s.d.HasChange Key.tags = true →
      (rmqc.PutUser s.calls s.d.Id
        { Password := s.d.password, Tags := userTagsToString s.d }).2 = none →
      (rmqc.PutUser s.calls s.d.Id
        { Password := s.d.password, Tags := userTagsToString s.d }).1.StatusCode < 400 →
      (rmqc.PutUser
        (s.calls ++
          [Call.PutUser s.d.Id { Password := s.d.password, Tags := userTagsToString s.d }])
        s.d.Id { Password := "", Tags := userTagsToString s.d }).2 = none →
      (rmqc.PutUser
        (s.calls ++
          [Call.PutUser s.d.Id { Password := s.d.password, Tags := userTagsToString s.d }])
        s.d.Id { Password := "", Tags := userTagsToString s.d }).1.StatusCode < 400 →
      (UpdateUser rmqc s).1.calls = s.calls ++
        [Call.PutUser s.d.Id { Password := s.d.password, Tags := userTagsToString s.d },
         Call.PutUser s.d.Id { Password := "", Tags := userTagsToString s.d },
         Call.GetUser s.d.Id]) := by
  refine ⟨?_, ?_, ?_⟩
  · intro hp ht herr hst
    have h1 := UpdateUser_password_skip rmqc s.d.Id s hp
    have h2 := UpdateUser_tags_ok rmqc s.d.Id s ht herr hst
    simp only [UpdateUser, h1, h2, ReadUser_calls]
    simp
  · intro hp ht herr hst
    have h1 := UpdateUser_password_ok rmqc s.d.Id s hp herr hst
    have h2 := UpdateUser_tags_skip rmqc s.d.Id
      { s with calls := s.calls ++
          [Call.PutUser s.d.Id { Password := s.d.password, Tags := userTagsToString s.d }] } ht
    simp only [UpdateUser, h1, h2, ReadUser_calls]
    simp
  · intro hp ht herr hst herr2 hst2
    have h1 := UpdateUser_password_ok rmqc s.d.Id s hp herr hst
    have h2 := UpdateUser_tags_ok rmqc s.d.Id
      { s with calls := s.calls ++
          [Call.PutUser s.d.Id { Password := s.d.password, Tags := userTagsToString s.d }] }
      ht herr2 hst2
    simp only [UpdateUser, h1, h2, ReadUser_calls]
    simp

/-- C8: `UpdateUser` stops at the first failed call.  When the password changed and
the `PutUser` carrying it returns a transport error or a status of 400 or more,
`UpdateUser` returns an error after that single remote call.  When both fields
changed, the password call went through and the tags call fails, `UpdateUser`
returns an error after exactly those two `PutUser` calls.  In both cases no other
call is issued, so no read and nothing that restores the password, and the local
record is as it was. -/
theorem UpdateUser_aborts (rmqc : Client) (s : Run)
    (hp : s.d.HasChange Key.password = true) :
    (((rmqc.PutUser s.calls s.d.Id
          { Password := s.d.password, Tags := userTagsToString s.d }).2 ≠ none ∨
        (rmqc.PutUser s.calls s.d.Id
          { Password := s.d.password, Tags := userTagsToString s.d }).1.StatusCode ≥ 400) →
      (UpdateUser rmqc s).2 ≠ none ∧
      (UpdateUser rmqc s).1.d = s.d ∧
      (UpdateUser rmqc s).1.calls = s.calls ++
        [Call.PutUser s.d.Id { Password := s.d.password, Tags := userTagsToString s.d }]) ∧
    (s.d.HasChange Key.tags = true →
      (rmqc.PutUser s.calls s.d.Id
        { Password := s.d.password, Tags := userTagsToString s.d }).2 = none →
      (rmqc.PutUser s.calls s.d.Id
        { Password := s.d.password, Tags := userTagsToString s.d }).1.StatusCode < 400 →
      ((rmqc.PutUser
          (s.calls ++
            [Call.PutUser s.d.Id { Password := s.d.password, Tags := userTagsToString s.d }])
          s.d.Id { Password := "", Tags := userTagsToString s.d }).2 ≠ none ∨
        (rmqc.PutUser
          (s.calls ++
            [Call.PutUser s.d.Id { Password := s.d.password, Tags := userTagsToString s.d }])
          s.d.Id { Password := "", Tags := userTagsToString s.d }).1.StatusCode ≥ 400) →
      (UpdateUser rmqc s).2 ≠ none ∧
      (UpdateUser rmqc s).1.d = s.d ∧
      (UpdateUser rmqc s).1.calls = s.calls ++
        [Call.PutUser s.d.Id { Password := s.d.password, Tags := userTagsToString s.d },
         Call.PutUser s.d.Id { Password := "", Tags := userTagsToString s.d }]) := by
  constructor
  · intro hfail
    obtain ⟨h1, h2⟩ := UpdateUser_password_fail rmqc s.d.Id s hp hfail
    unfold UpdateUser
    cases hr : UpdateUser.password rmqc s.d.Id s with
    | mk s1 r =>
      rw [hr] at h1 h2
      cases r with
      | none => exact absurd rfl h2
      | some err =>
        subst h1
        simp [hr]
  · intro ht herr hst hfail
    have h1 := UpdateUser_password_ok rmqc s.d.Id s hp herr hst
    obtain ⟨h2, h3⟩ := UpdateUser_tags_fail rmqc s.d.Id
      { s with calls := s.calls ++
          [Call.PutUser s.d.Id { Password := s.d.password, Tags := userTagsToString s.d }] }
      ht hfail
    unfold UpdateUser
    simp only [h1]
    cases hr : UpdateUser.tags rmqc s.d.Id
      { s with calls := s.calls ++
          [Call.PutUser s.d.Id { Password := s.d.password, Tags := userTagsToString s.d }] } with
    | mk s2 r =>
      rw [hr] at h2 h3
      cases r with
      | none => exact absurd rfl h3
      | some err =>
        subst h2
        simp [hr]

/-- C2, on a broker that accepts every write: the calls issued for a change of
tags, of password, and of both. -/
theorem UpdateUser_field_isolation_witness :
    (UpdateUser
        (fixedClient (noContent204, none)
          (.ok { Name := "svc-user", Tags := "management,monitoring" }) (noContent204, none))
        { d := svcUser "p1" ["management", "monitoring"] false true, calls := [] }).1.calls
      = [Call.PutUser "svc-user" { Password := "", Tags := "management,monitoring" },
         Call.GetUser "svc-user"] ∧
    (UpdateUser
        (fixedClient (noContent204, none)
          (.ok { Name := "svc-user", Tags := "management" }) (noContent204, none))
        { d := svcUser "p2" ["management"] true false, calls := [] }).1.calls
      = [Call.PutUser "svc-user" { Password := "p2", Tags := "management" },
         Call.GetUser "svc-user"] ∧
    (UpdateUser
        (fixedClient (noContent204, none)
          (.ok { Name := "svc-user", Tags := "monitoring" }) (noContent204, none))
        { d := svcUser "p2" ["monitoring"] true true, calls := [] }).1.calls
      = [Call.PutUser "svc-user" { Password := "p2", Tags := "monitoring" },
         Call.PutUser "svc-user" { Password := "", Tags := "monitoring" },
         Call.GetUser "svc-user"] :=
  ⟨(UpdateUser_field_isolation
      (fixedClient (noContent204, none)
        (.ok { Name := "svc-user", Tags := "management,monitoring" }) (noContent204, none))
      { d := svcUser "p1" ["management", "monitoring"] false true, calls := [] }).1
      rfl rfl rfl (by decide),
   (UpdateUser_field_isolation
      (fixedClient (noContent204, none)
        (.ok { Name := "svc-user", Tags := "management" }) (noContent204, none))
      { d := svcUser "p2" ["management"] true false, calls := [] }).2.1
      rfl rfl rfl (by decide),
   (UpdateUser_field_isolation
      (fixedClient (noContent204, none)
        (.ok { Name := "svc-user", Tags := "monitoring" }) (noContent204, none))
      { d := svcUser "p2" ["monitoring"] true true, calls := [] }).2.2
      rfl rfl rfl (by decide) rfl (by decide)⟩

/-- C8, at a refused password call, and at a refused tags call after an accepted
password call. -/
theorem UpdateUser_aborts_witness :
    ((UpdateUser
        (fixedClient (serverError500, none)
          (.ok { Name := "svc-user", Tags := "monitoring" }) (noContent204, none))
        { d := svcUser "p2" ["monitoring"] true true, calls := [] }).2 ≠ none ∧
      (UpdateUser
        (fixedClient (serverError500, none)
          (.ok { Name := "svc-user", Tags := "monitoring" }) (noContent204, none))
        { d := svcUser "p2" ["monitoring"] true true, calls := [] }).1.d
        = svcUser "p2" ["monitoring"] true true ∧
      (UpdateUser
        (fixedClient (serverError500, none)
          (.ok { Name := "svc-user", Tags := "monitoring" }) (noContent204, none))
        { d := svcUser "p2" ["monitoring"] true true, calls := [] }).1.calls
        = [Call.PutUser "svc-user" { Password := "p2", Tags := "monitoring" }]) ∧
    ((UpdateUser tagsRefusingClient
        { d := svcUser "p2" ["monitoring"] true true, calls := [] }).2 ≠ none ∧
      (UpdateUser tagsRefusingClient
        { d := svcUser "p2" ["monitoring"] true true, calls := [] }).1.d
        = svcUser "p2" ["monitoring"] true true ∧
      (UpdateUser tagsRefusingClient
        { d := svcUser "p2" ["monitoring"] true true, calls := [] }).1.calls
        = [Call.PutUser "svc-user" { Password := "p2", Tags := "monitoring" },
           Call.PutUser "svc-user" { Password := "", Tags := "monitoring" }]) :=
  ⟨(UpdateUser_aborts
      (fixedClient (serverError500, none)
        (.ok { Name := "svc-user", Tags := "monitoring" }) (noContent204, none))
      { d := svcUser "p2" ["monitoring"] true true, calls := [] } rfl).1
      (Or.inr (by decide)),
   (UpdateUser_aborts tagsRefusingClient
      { d := svcUser "p2" ["monitoring"] true true, calls := [] } rfl).2
      rfl rfl (by decide) (Or.inr (by decide))⟩

/-! ## Delete -/

theorem DeleteUser_run (rmqc : Client) (s : Run) :
    (DeleteUser rmqc s).1 = { s with calls := s.calls ++ [Call.DeleteUser s.d.Id] } := by
  unfold DeleteUser
  simp only
  split
  · rfl
  · split
    · rfl
    · split <;> rfl

theorem DeleteUser_fails_iff (rmqc : Client) (s : Run) :
    (DeleteUser rmqc s).2 ≠ none ↔
      ((rmqc.DeleteUser s.calls s.d.Id).2 ≠ none ∨
        ((rmqc.DeleteUser s.calls s.d.Id).1.StatusCode ≥ 400 ∧
          (rmqc.DeleteUser s.calls s.d.Id).1.StatusCode ≠ 404)) := by
  unfold DeleteUser
  simp only
  split
  · rename_i err herr
    simp [herr]
  · rename_i herr
    split
    · rename_i h404
      simp [herr, h404]
    · rename_i h404
      split
      · rename_i h400
        simp [herr, h404, h400]
      · rename_i h400
        simp [herr, h400]

/-- C3: `DeleteUser` issues one remote delete call and fails exactly when that
call returns a transport error or a status that is 400 or more and not 404; so
it succeeds on status 404 without a transport error, and deleting an absent
user twice in a row, each call answered with 404, succeeds both times. -/
theorem DeleteUser_idempotent (rmqc : Client) (s : Run) :
    ((DeleteUser rmqc s).2 ≠ none ↔
      ((rmqc.DeleteUser s.calls s.d.Id).2 ≠ none ∨
        ((rmqc.DeleteUser s.calls s.d.Id).1.StatusCode ≥ 400 ∧
          (rmqc.DeleteUser s.calls s.d.Id).1.StatusCode ≠ 404))) ∧
    ((rmqc.DeleteUser s.calls s.d.Id).2 = none →
      (rmqc.DeleteUser s.calls s.d.Id).1.StatusCode = 404 →
      (DeleteUser rmqc s).2 = none) ∧
    ((rmqc.DeleteUser s.calls s.d.Id).2 = none →
      (rmqc.DeleteUser s.calls s.d.Id).1.StatusCode = 404 →
      (rmqc.DeleteUser (s.calls ++ [Call.DeleteUser s.d.Id]) s.d.Id).2 = none →
      (rmqc.DeleteUser (s.calls ++ [Call.DeleteUser s.d.Id]) s.d.Id).1.StatusCode = 404 →
      (DeleteUser rmqc s).2 = none ∧
      (DeleteUser rmqc (DeleteUser rmqc s).1).2 = none ∧
      (DeleteUser rmqc (DeleteUser rmqc s).1).1.calls
        = s.calls ++ [Call.DeleteUser s.d.Id, Call.DeleteUser s.d.Id]) := by
  have key : ∀ t : Run, (rmqc.DeleteUser t.calls t.d.Id).2 = none →
      (rmqc.DeleteUser t.calls t.d.Id).1.StatusCode = 404 → (DeleteUser rmqc t).2 = none := by
    intro t herr h404
    by_contra hne
    rcases (DeleteUser_fails_iff rmqc t).mp hne with h | ⟨_, h⟩
    · exact h herr
    · exact h h404
  refine ⟨DeleteUser_fails_iff rmqc s, key s, ?_⟩
  intro herr h404 herr2 h4042
  refine ⟨key s herr h404, ?_, ?_⟩
  · apply key
    · rw [DeleteUser_run]
      exact herr2
    · rw [DeleteUser_run]
      exact h4042
  · rw [DeleteUser_run, DeleteUser_run]
    simp [ResourceData.Id]

/-- C3, at an absent user: the broker answers 404 to both deletes. -/
theorem DeleteUser_idempotent_witness :
    (DeleteUser
        (fixedClient (noContent204, none) (.error (Error.response 404 "Not Found"))
          (notFound404, none))
        { d := svcUser "p1" [] false false, calls := [] }).2 = none ∧
    (DeleteUser
        (fixedClient (noContent204, none) (.error (Error.response 404 "Not Found"))
          (notFound404, none))
        (DeleteUser
          (fixedClient (noContent204, none) (.error (Error.response 404 "Not Found"))
            (notFound404, none))
          { d := svcUser "p1" [] false false, calls := [] }).1).2 = none ∧
    (DeleteUser
        (fixedClient (noContent204, none) (.error (Error.response 404 "Not Found"))
          (notFound404, none))
        (DeleteUser
          (fixedClient (noContent204, none) (.error (Error.response 404 "Not Found"))
            (notFound404, none))
          { d := svcUser "p1" [] false false, calls := [] }).1).1.calls
      = [Call.DeleteUser "svc-user", Call.DeleteUser "svc-user"] :=
  (DeleteUser_idempotent
    (fixedClient (noContent204, none) (.error (Error.response 404 "Not Found"))
      (notFound404, none))
    { d := svcUser "p1" [] false false, calls := [] }).2.2 rfl rfl rfl rfl

/-! ## Create -/

theorem attempt_fail (rmqc : Client) (name : String) (u : UserSettings) (s : Run)
    (err : Error) (h : (rmqc.PutUser s.calls name u).2 = some err) :
    CreateUser.attempt rmqc name u s =
      ({ s with calls := s.calls ++ [Call.PutUser name u] },
        some (RetryableError
          (Error.errorf ("expected user to be created but received error: " ++ err.text)))) := by
  simp [CreateUser.attempt, h]

theorem attempt_ok (rmqc : Client) (name : String) (u : UserSettings) (s : Run)
    (h : (rmqc.PutUser s.calls name u).2 = none) :
    CreateUser.attempt rmqc name u s =
      ((ReadUser rmqc { d := s.d.SetId name, calls := s.calls ++ [Call.PutUser name u] }).1,
        NonRetryableError
          (ReadUser rmqc { d := s.d.SetId name, calls := s.calls ++ [Call.PutUser name u] }).2) := by
  simp [CreateUser.attempt, h]

theorem Retry_of_nonRetryable {σ : Type} (f : σ → σ × Option RetryError) (n : Nat)
    (last : Option Error) (s s1 : σ) (r : Option Error) (h : f s = (s1, NonRetryableError r)) :
    Retry f (n + 1) last s = (s1, r) := by
  cases r with
  | none => simp [Retry, h, NonRetryableError]
  | some err => simp [Retry, h, NonRetryableError]

theorem replicate_shift (l : List Call) (c : Call) (j : Nat) :
    (l ++ [c]) ++ List.replicate j c = l ++ List.replicate (j + 1) c := by
  simp [List.replicate_succ]

theorem Retry_attempt_all_fail (rmqc : Client) (name : String) (u : UserSettings) :
    ∀ (n : Nat) (last : Option Error) (s : Run),
      (∀ j, j < n →
        (rmqc.PutUser (s.calls ++ List.replicate j (Call.PutUser name u)) name u).2 ≠ none) →
      (Retry (CreateUser.attempt rmqc name u) n last s).1
          = { s with calls := s.calls ++ List.replicate n (Call.PutUser name u) } ∧
        (Retry (CreateUser.attempt rmqc name u) n last s).2 ≠ none := by
  intro n
  induction n with
  | zero =>
    intro last s _
    simp [Retry]
  | succ n ih =>
    intro last s h
    have h0 := h 0 (Nat.succ_pos n)
    simp only [List.replicate_zero, List.append_nil] at h0
    obtain ⟨err, herr⟩ := Option.ne_none_iff_exists'.mp h0
    have hstep : ∀ j, j < n →
        (rmqc.PutUser
          (({ s with calls := s.calls ++ [Call.PutUser name u] } : Run).calls
            ++ List.replicate j (Call.PutUser name u)) name u).2 ≠ none := by
      intro j hj
      have := h (j + 1) (Nat.succ_lt_succ hj)
      rwa [← replicate_shift] at this
    have := ih (some (Error.errorf
      ("expected user to be created but received error: " ++ err.text)))
      { s with calls := s.calls ++ [Call.PutUser name u] } hstep
    simp only [replicate_shift] at this
    simpa [Retry, attempt_fail rmqc name u s err herr, RetryableError] using this

theorem Retry_attempt_first_ok (rmqc : Client) (name : String) (u : UserSettings) :
    ∀ (n : Nat) (last : Option Error) (s : Run) (k : Nat), k < n →
      (∀ j, j < k →
        (rmqc.PutUser (s.calls ++ List.replicate j (Call.PutUser name u)) name u).2 ≠ none) →
      (rmqc.PutUser (s.calls ++ List.replicate k (Call.PutUser name u)) name u).2 = none →
      Retry (CreateUser.attempt rmqc name u) n last s
        = ReadUser rmqc
            { d := s.d.SetId name,
              calls := s.calls ++ List.replicate (k + 1) (Call.PutUser name u) } := by
  intro n
  induction n with
  | zero =>
    intro last s k hk
    exact absurd hk (Nat.not_lt_zero k)
  | succ n ih =>
    intro last s k hk hfail hok
    cases k with
    | zero =>
      simp only [List.replicate_zero, List.append_nil] at hok
      rw [Retry_of_nonRetryable _ n last s _ _ (attempt_ok rmqc name u s hok)]
      simp [List.replicate_succ]
    | succ k =>
      have h0 := hfail 0 (Nat.succ_pos k)
      simp only [List.replicate_zero, List.append_nil] at h0
      obtain ⟨err, herr⟩ := Option.ne_none_iff_exists'.mp h0
      have hstep : ∀ j, j < k →
          (rmqc.PutUser
            (({ s with calls := s.calls ++ [Call.PutUser name u] } : Run).calls
              ++ List.replicate j (Call.PutUser name u)) name u).2 ≠ none := by
        intro j hj
        have := hfail (j + 1) (Nat.succ_lt_succ hj)
        rwa [← replicate_shift] at this
      have hok2 : (rmqc.PutUser
            (({ s with calls := s.calls ++ [Call.PutUser name u] } : Run).calls
              ++ List.replicate k (Call.PutUser name u)) name u).2 = none := by
        rwa [← replicate_shift] at hok
      have := ih (some (Error.errorf
        ("expected user to be created but received error: " ++ err.text)))
        { s with calls := s.calls ++ [Call.PutUser name u] } k (Nat.lt_of_succ_lt_succ hk)
        hstep hok2
      simp only [replicate_shift] at this
      simpa [Retry, attempt_fail rmqc name u s err herr, RetryableError] using this

theorem CreateUser_all_fail (rmqc : Client) (s : Run)
    (h : ∀ j, j < s.d.timeoutCreate → CreateUser.putErr rmqc s j ≠ none) :
    (CreateUser rmqc s).1
        = { s with calls := CreateUser.logAfter s s.d.timeoutCreate } ∧
      (CreateUser rmqc s).2 ≠ none :=
  Retry_attempt_all_fail rmqc s.d.name (CreateUser.userSettings s.d) s.d.timeoutCreate none s h

theorem CreateUser_first_ok (rmqc : Client) (s : Run) (k : Nat) (hk : k < s.d.timeoutCreate)
    (hfail : ∀ j, j < k → CreateUser.putErr rmqc s j ≠ none)
    (hok : CreateUser.putErr rmqc s k = none) :
    CreateUser rmqc s
      = ReadUser rmqc { d := s.d.SetId s.d.name, calls := CreateUser.logAfter s (k + 1) } :=
  Retry_attempt_first_ok rmqc s.d.name (CreateUser.userSettings s.d) s.d.timeoutCreate none s k
    hk hfail hok

theorem ReadUser_error (rmqc : Client) (s : Run) (err : Error)
    (hget : rmqc.GetUser s.calls s.d.Id = .error err) :
    ReadUser rmqc s =
      ({ d := (checkDeleted s.d err).1, calls := s.calls ++ [Call.GetUser s.d.Id] },
        (checkDeleted s.d err).2) := by
  unfold ReadUser
  simp only [hget]

/-- C4, at a refused write: the broker answers `PutUser` with status 500 and no
transport error.  The attempt of `CreateUser` does not report a retryable failure,
it reports success; it has set the identity and read the user back; and
`CreateUser` returns success after that single attempt. -/
theorem CreateUser_ignores_failure_status :
    (serverError500.StatusCode ≥ 400) ∧
    (CreateUser.attempt
        (fixedClient (serverError500, none) (.ok { Name := "svc-user", Tags := "" })
          (noContent204, none))
        "svc-user" (CreateUser.userSettings newUser) { d := newUser, calls := [] }).2 = none ∧
    (CreateUser.attempt
        (fixedClient (serverError500, none) (.ok { Name := "svc-user", Tags := "" })
          (noContent204, none))
        "svc-user" (CreateUser.userSettings newUser) { d := newUser, calls := [] }).1.d.id
      = "svc-user" ∧
    (CreateUser.attempt
        (fixedClient (serverError500, none) (.ok { Name := "svc-user", Tags := "" })
          (noContent204, none))
        "svc-user" (CreateUser.userSettings newUser) { d := newUser, calls := [] }).1.calls
      = [Call.PutUser "svc-user" { Password := "p1", Tags := "management" },
         Call.GetUser "svc-user"] ∧
    CreateUser
        (fixedClient (serverError500, none) (.ok { Name := "svc-user", Tags := "" })
          (noContent204, none))
        { d := newUser, calls := [] }
      = ({ d := { newUser with id := "svc-user" },
           calls := [Call.PutUser "svc-user" { Password := "p1", Tags := "management" },
                     Call.GetUser "svc-user"] }, none) := by
  refine ⟨by decide, rfl, rfl, rfl, rfl⟩

/-- C5, as stated, fails when the trailing read finds the user missing: the first
`PutUser` goes through, `ReadUser` returns no error, `CreateUser` returns no error,
and the identity is empty, not the requested name. -/
theorem CreateUser_success_with_cleared_identity :
    CreateUser.putErr
        (fixedClient (noContent204, none) (.error (Error.response 404 "Not Found"))
          (noContent204, none))
        { d := newUser, calls := [] } 0 = none ∧
    (ReadUser
        (fixedClient (noContent204, none) (.error (Error.response 404 "Not Found"))
          (noContent204, none))
        { d := newUser.SetId "svc-user",
          calls := [Call.PutUser "svc-user" (CreateUser.userSettings newUser)] }).2 = none ∧
    (CreateUser
        (fixedClient (noContent204, none) (.error (Error.response 404 "Not Found"))
          (noContent204, none))
        { d := newUser, calls := [] }).2 = none ∧
    (CreateUser
        (fixedClient (noContent204, none) (.error (Error.response 404 "Not Found"))
          (noContent204, none))
        { d := newUser, calls := [] }).1.d.id = "" ∧
    newUser.name = "svc-user" ∧
    (CreateUser
        (fixedClient (noContent204, none) (.error (Error.response 404 "Not Found"))
          (noContent204, none))
        { d := newUser, calls := [] }).1.d.id ≠ newUser.name := by
  refine ⟨rfl, rfl, rfl, rfl, rfl, by decide⟩

/-- C5, amended: for every N, if `PutUser` returns a transport error on the first
N attempts and succeeds on attempt N+1, inside the window, with no error and a
status below 400, then `CreateUser` returns what the trailing `ReadUser` returns:
when that read gets the user record, `CreateUser` succeeds and the identity is
the requested name; when it finds the user missing, `CreateUser` succeeds as well
and the identity is empty.  If `PutUser` returns a transport error on every
attempt of the window, `CreateUser` fails and the local record, identity
included, is as it was.  An attempt answered with a status of 400 or more and no
transport error is outside this statement. -/
theorem CreateUser_retry (rmqc : Client) (s : Run) (N : Nat) :
    (N < s.d.timeoutCreate →
      (∀ j, j < N → CreateUser.putErr rmqc s j ≠ none) →
      CreateUser.putErr rmqc s N = none →
      CreateUser.putStatus rmqc s N < 400 →
      (∀ user : UserInfo,
        rmqc.GetUser (CreateUser.logAfter s (N + 1)) s.d.name = .ok user →
        (CreateUser rmqc s).2 = none ∧ (CreateUser rmqc s).1.d.id = s.d.name) ∧
      (∀ err : Error,
        rmqc.GetUser (CreateUser.logAfter s (N + 1)) s.d.name = .error err →
        err.isNotFound = true →
        (CreateUser rmqc s).2 = none ∧ (CreateUser rmqc s).1.d.id = "")) ∧
    ((∀ j, j < s.d.timeoutCreate → CreateUser.putErr rmqc s j ≠ none) →
      (CreateUser rmqc s).2 ≠ none ∧ (CreateUser rmqc s).1.d = s.d) := by
  constructor
  · intro hN hfail hok _
    have hrun := CreateUser_first_ok rmqc s N hN hfail hok
    constructor
    · intro user hget
      rw [hrun, ReadUser_ok rmqc
        { d := s.d.SetId s.d.name, calls := CreateUser.logAfter s (N + 1) } user hget]
      exact ⟨rfl, rfl⟩
    · intro err hget hnf
      rw [hrun, ReadUser_error rmqc _ err hget]
      simp [checkDeleted, hnf, ResourceData.SetId]
  · intro hall
    obtain ⟨h1, h2⟩ := CreateUser_all_fail rmqc s hall
    exact ⟨h2, by rw [h1]⟩

/-- C5, amended, on a broker that refuses the connection twice and then accepts
the write with status 204, where the third attempt creates the user, and on a
broker that refuses the connection throughout the window. -/
theorem CreateUser_retry_witness :
    ((CreateUser (flakyClient 2) { d := newUser, calls := [] }).2 = none ∧
      (CreateUser (flakyClient 2) { d := newUser, calls := [] }).1.d.id = "svc-user") ∧
    ((CreateUser (flakyClient 5) { d := newUser, calls := [] }).2 ≠ none ∧
      (CreateUser (flakyClient 5) { d := newUser, calls := [] }).1.d = newUser) :=
  ⟨((CreateUser_retry (flakyClient 2) { d := newUser, calls := [] } 2).1
      (by decide) (by decide) rfl (by decide)).1
      { Name := "svc-user", Tags := "management" } rfl,
   (CreateUser_retry (flakyClient 5) { d := newUser, calls := [] } 0).2 (by decide)⟩

/-- C6, as stated, fails when the write goes through and the trailing read
fails: `CreateUser` returns the error of the read, and the identity, empty
before the call, is the requested name. -/
theorem CreateUser_error_with_identity_set :
    newUser.id = "" ∧
    (CreateUser
        (fixedClient (noContent204, none) (.error (Error.transport "connection reset"))
          (noContent204, none))
        { d := newUser, calls := [] }).2 = some (Error.transport "connection reset") ∧
    (CreateUser
        (fixedClient (noContent204, none) (.error (Error.transport "connection reset"))
          (noContent204, none))
        { d := newUser, calls := [] }).1.d.id = "svc-user" ∧
    (CreateUser
        (fixedClient (noContent204, none) (.error (Error.transport "connection reset"))
          (noContent204, none))
        { d := newUser, calls := [] }).1.d.id ≠ newUser.id := by
  refine ⟨rfl, rfl, rfl, by decide⟩

/-- C6, amended: `CreateUser` sets the identity to the requested name once a
`PutUser` attempt succeeds, with no transport error and a status below 400, and
it does so before the trailing `ReadUser`.  So for a run that returns an error,
and in which the first attempt without a transport error, if there is one, has a
status below 400, there are two cases: every attempt of the window returned a
transport error, and the local record, identity included, is as it was; or an
attempt succeeded, the error is the one `GetUser` returned to the trailing read,
not a not-found, and the identity is the requested name.  A run in which an
attempt is answered with a status of 400 or more and no transport error is
outside this statement. -/
theorem CreateUser_error_identity (rmqc : Client) (s : Run) (err : Error)
    (hst : ∀ k, k < s.d.timeoutCreate →
      (∀ j, j < k → CreateUser.putErr rmqc s j ≠ none) →
      CreateUser.putErr rmqc s k = none → CreateUser.putStatus rmqc s k < 400)
    (h : (CreateUser rmqc s).2 = some err) :
    ((∀ j, j < s.d.timeoutCreate → CreateUser.putErr rmqc s j ≠ none) ∧
      (CreateUser rmqc s).1.d = s.d) ∨
    (∃ k, k < s.d.timeoutCreate ∧
      (∀ j, j < k → CreateUser.putErr rmqc s j ≠ none) ∧
      CreateUser.putErr rmqc s k = none ∧
      CreateUser.putStatus rmqc s k < 400 ∧
      rmqc.GetUser (CreateUser.logAfter s (k + 1)) s.d.name = .error err ∧
      err.isNotFound = false ∧
      (CreateUser rmqc s).1.d = s.d.SetId s.d.name ∧
      (CreateUser rmqc s).1.d.id = s.d.name) := by
  by_cases hall : ∀ j, j < s.d.timeoutCreate → CreateUser.putErr rmqc s j ≠ none
  · left
    exact ⟨hall, by rw [(CreateUser_all_fail rmqc s hall).1]⟩
  · right
    have hex : ∃ k, k < s.d.timeoutCreate ∧ CreateUser.putErr rmqc s k = none := by
      by_contra hno
      apply hall
      intro j hj hnone
      exact hno ⟨j, hj, hnone⟩
    classical
    have hmin : ∀ j, j < Nat.find hex → CreateUser.putErr rmqc s j ≠ none := by
      intro j hj hnone
      exact Nat.find_min hex hj ⟨Nat.lt_trans hj (Nat.find_spec hex).1, hnone⟩
    refine ⟨Nat.find hex, (Nat.find_spec hex).1, hmin, (Nat.find_spec hex).2,
      hst (Nat.find hex) (Nat.find_spec hex).1 hmin (Nat.find_spec hex).2, ?_⟩
    have hrun := CreateUser_first_ok rmqc s (Nat.find hex) (Nat.find_spec hex).1 hmin
      (Nat.find_spec hex).2
    rw [hrun] at h ⊢
    cases hget : rmqc.GetUser (CreateUser.logAfter s (Nat.find hex + 1)) s.d.name with
    | ok user =>
      rw [ReadUser_ok rmqc
        { d := s.d.SetId s.d.name, calls := CreateUser.logAfter s (Nat.find hex + 1) }
        user hget] at h
      exact absurd h (by simp)
    | error e =>
      have hrd := ReadUser_error rmqc
        { d := s.d.SetId s.d.name, calls := CreateUser.logAfter s (Nat.find hex + 1) } e hget
      rw [hrd] at h ⊢
      cases hnf : e.isNotFound with
      | true => simp [checkDeleted, hnf] at h
      | false =>
        simp only [checkDeleted, hnf] at h ⊢
        simp at h
        subst h
        simp [ResourceData.SetId, hnf]

/-- C6, amended, at a create whose write is accepted with status 204 and whose
read fails. -/
theorem CreateUser_error_identity_witness :
    ((∀ j, j < newUser.timeoutCreate →
        CreateUser.putErr
          (fixedClient (noContent204, none) (.error (Error.transport "connection reset"))
            (noContent204, none))
          { d := newUser, calls := [] } j ≠ none) ∧
      (CreateUser
        (fixedClient (noContent204, none) (.error (Error.transport "connection reset"))
          (noContent204, none))
        { d := newUser, calls := [] }).1.d = newUser) ∨
    (∃ k, k < newUser.timeoutCreate ∧
      (∀ j, j < k →
        CreateUser.putErr
          (fixedClient (noContent204, none) (.error (Error.transport "connection reset"))
            (noContent204, none))
          { d := newUser, calls := [] } j ≠ none) ∧
      CreateUser.putErr
          (fixedClient (noContent204, none) (.error (Error.transport "connection reset"))
            (noContent204, none))
          { d := newUser, calls := [] } k = none ∧
      CreateUser.putStatus
          (fixedClient (noContent204, none) (.error (Error.transport "connection reset"))
            (noContent204, none))
          { d := newUser, calls := [] } k < 400 ∧
      (fixedClient (noContent204, none) (.error (Error.transport "connection reset"))
          (noContent204, none)).GetUser
        (CreateUser.logAfter { d := newUser, calls := [] } (k + 1)) newUser.name
        = .error (Error.transport "connection reset") ∧
      (Error.transport "connection reset").isNotFound = false ∧
      (CreateUser
        (fixedClient (noContent204, none) (.error (Error.transport "connection reset"))
          (noContent204, none))
        { d := newUser, calls := [] }).1.d = newUser.SetId newUser.name ∧
      (CreateUser
        (fixedClient (noContent204, none) (.error (Error.transport "connection reset"))
          (noContent204, none))
        { d := newUser, calls := [] }).1.d.id = newUser.name) :=
  CreateUser_error_identity
    (fixedClient (noContent204, none) (.error (Error.transport "connection reset"))
      (noContent204, none))
    { d := newUser, calls := [] } (Error.transport "connection reset")
    (by decide) rfl

end Rabbitmq
